import Mathlib

/-!
Verification of the lion router core.

Shallow embedding of the repository's router (`router.go`), context
(`context.go`) and matcher adapter (`src/unnamed/part_000`).

Handlers are modelled by their observable effect on an event trace:
a `Handler` maps the trace accumulated so far to the extended trace, and a
`Middleware` transforms handlers.  A middleware that logs an event before
delegating is `labelMw`; a terminal handler that logs one event is
`labelHandler`.  This is the standard observability embedding for
execution-order properties.

Go panics are modelled with `Option` (`none` = panic aborts setup);
Go's `nil` references with `Option` fields; Go `int` with `Int`.
-/

namespace Lion

/-- An execution trace of observable events. -/
abbrev Trace := List Nat

/-- The type `Handler` (lion's `Handler` interface): modelled by its effect on a trace. -/
abbrev Handler := Trace → Trace

/-- The type `Middleware` (lion's `Middleware` interface): a handler transformer. -/
abbrev Middleware := Handler → Handler

/-- A middleware that records the event `l` and then runs the next handler
(used to observe execution order). -/
def labelMw (l : Nat) : Middleware := fun next tr => next (tr ++ [l])

/-- A terminal handler that records the event `l`. -/
def labelHandler (l : Nat) : Handler := fun tr => tr ++ [l]

/-- Struct `registeredHandler` from `router.go`: the record appended to
`r.registeredHandlers` by `Handle` and replayed by `Mount`. -/
structure RegisteredHandler where
  method : String
  pattern : String
  handler : Handler

/-- One `Router` node's own data (`router.go`'s `Router` struct without the
parent pointer and the shared matcher, which the chain representation and an
explicitly threaded matcher carry instead). -/
structure RouterNode where
  pattern : String
  middlewares : List Middleware
  namedMiddlewares : List (String × List Middleware)
  registeredHandlers : List RegisteredHandler

/-- A `*Router` value is modelled by the path from the node to the root:
`head` is the node itself, the last element is the root.  The Go root's
self-loop (`r.router == r`) corresponds to a singleton chain. -/
abbrev Chain := List RouterNode

/-- Constructor `New(mws...)` from `router.go`: a fresh root node (its `pattern` field is
the zero value `""`). -/
def newRouter (mws : List Middleware) : RouterNode :=
  { pattern := "", middlewares := mws, namedMiddlewares := [], registeredHandlers := [] }

/-- Function `isRoot` from `router.go`: the chain has no ancestors. -/
def isRoot (c : Chain) : Bool := c.tail.isEmpty

/-- The `pattern` field of the node a chain stands for. -/
def headPattern (c : Chain) : String :=
  match c with
  | [] => ""
  | n :: _ => n.pattern

/-- Whether a pattern starts with the byte `'/'`. -/
def startsWithSlash (p : String) : Bool := p.data.head? == some '/'

/-- Function `validatePattern` from `router.go`: panics iff the pattern is nonempty and
its first byte is not `'/'` (`len(pattern) > 0 && pattern[0] != '/'`).  `true`
means panic. -/
def validatePatternPanics (p : String) : Bool :=
  decide (0 < p.length) && !(startsWithSlash p)

/-- The HTTP methods handled by `methodsHandlers.addHandler`/`getHandler` in
`src/unnamed/part_000`.  Modelled from the spec: the variable
`allowedHTTPMethods` itself is declared outside `src/`; the spec calls it
"the fixed set of supported HTTP verbs" and the `methodsHandlers` switch in
`src/unnamed/part_000` enumerates exactly these nine. -/
def allowedHTTPMethods : List String :=
  ["GET", "HEAD", "POST", "PUT", "DELETE", "TRACE", "OPTIONS", "CONNECT", "PATCH"]

/-- Function `isInStringSlice` from `src/unnamed/part_000`. -/
def isInStringSlice (slice : List String) (expected : String) : Bool :=
  slice.any (fun val => val == expected)

/-- Method `pathMatcher.prevalidation` from `src/unnamed/part_000`: panics iff the
pattern is empty or does not begin with `'/'`, or the method is not an allowed
HTTP method.  `true` means panic. -/
def prevalidationPanics (method pattern : String) : Bool :=
  (decide (pattern.length = 0) || !(startsWithSlash pattern))
    || !(isInStringSlice allowedHTTPMethods method)

/-- Modelled from the spec: `Middlewares.BuildHandler` is declared outside
`src/` (only its caller `buildMiddlewares` in `router.go` is present).
Per spec section 4.2 it wraps a handler with the node's own middleware
sequence "applied so that execution order is insertion order
(first-registered middleware on this node runs first, closest to the outer
caller of that subsequence)": the first middleware of the list becomes the
outermost wrapper. -/
def buildHandler (mws : List Middleware) (handler : Handler) : Handler :=
  mws.foldr (fun mw acc => mw acc) handler

/-- Method `buildMiddlewares` from `router.go`: wrap with the node's own middlewares,
then, if the node is not root, with the parent's chain (`handler =
r.middlewares.BuildHandler(handler); if !r.isRoot() { handler =
r.router.buildMiddlewares(handler) }`).  On the chain representation the
recursion walks towards the root. -/
def buildMiddlewares : Chain → Handler → Handler
  | [], handler => handler
  | n :: rest, handler => buildMiddlewares rest (buildHandler n.middlewares handler)

/-- The pattern `p` computed by `Group` in `router.go`: `p := r.pattern +
pattern; if pattern == "/" && r.pattern != "/" { p = r.pattern }`. -/
def groupPatternOf (c : Chain) (pattern : String) : String :=
  if pattern == "/" && headPattern c != "/" then headPattern c
  else headPattern c ++ pattern

/-- Method `Group` from `router.go`, continued: validate the resolved pattern
(`validatePattern(p)` panics, modelled by `none`), then create the child node
with pattern `p` and middlewares `mws`. -/
def group (c : Chain) (pattern : String) (mws : List Middleware) : Option Chain :=
  if validatePatternPanics (groupPatternOf c pattern) then none
  else some ({ pattern := groupPatternOf c pattern, middlewares := mws,
               namedMiddlewares := [], registeredHandlers := [] } :: c)

/-- The absolute pattern `Handle` computes: `if !r.isRoot() && pattern == "/"
{ p = r.pattern } else { p = r.pattern + pattern }`. -/
def resolveHandlePattern (c : Chain) (pattern : String) : String :=
  if !(isRoot c) && pattern == "/" then headPattern c
  else headPattern c ++ pattern

/-- The shared matcher's registrations, in registration order
(`RegisterMatcher.Register` from `src/unnamed/part_000`). -/
abbrev Matcher := List (String × String × Handler)

/-- Replace the node a chain stands for (mutation through the Go pointer). -/
def updateHead (c : Chain) (f : RouterNode → RouterNode) : Chain :=
  match c with
  | [] => []
  | n :: rest => f n :: rest

/-- Method `Handle` from `router.go`: validate the relative pattern, resolve the
absolute pattern, build the composed handler, append the record
`{method, pattern, built}` to `registeredHandlers`, and register
`(method, p, built)` with the shared matcher (whose `prevalidation` may
panic).  `none` models either panic. -/
def handle (c : Chain) (m : Matcher) (method pattern : String) (handler : Handler) :
    Option (Chain × Matcher) :=
  if validatePatternPanics pattern then none
  else if prevalidationPanics method (resolveHandlePattern c pattern) then none
  else
    some (updateHead c (fun n =>
            { n with registeredHandlers := n.registeredHandlers ++
                [⟨method, pattern, buildMiddlewares c handler⟩] }),
          m ++ [(method, resolveHandlePattern c pattern, buildMiddlewares c handler)])

/-- The loop body of `Mount` from `router.go`: replay each record of the
mounted router's `registeredHandlers` through `sub.Handle(rh.method,
rh.pattern, rh.handler)`. -/
def mountReplay : Chain → Matcher → List RegisteredHandler → Option (Chain × Matcher)
  | c, m, [] => some (c, m)
  | c, m, rh :: rest =>
    match handle c m rh.method rh.pattern rh.handler with
    | none => none
    | some (c', m') => mountReplay c' m' rest

/-- Method `Mount` from `router.go`: `sub := r.Group(pattern, mws...)`, then replay
every entry of the mounted router's `registeredHandlers` via `sub.Handle`. -/
def mount (c : Chain) (m : Matcher) (pattern : String) (mws : List Middleware)
    (mounted : List RegisteredHandler) : Option (Chain × Matcher) :=
  match group c pattern mws with
  | none => none
  | some sub => mountReplay sub m mounted

/-- Lookup in the `namedMiddlewares` map (Go `r.namedMiddlewares[name]`,
missing key giving the zero value `nil`). -/
def lookupNamed (nm : List (String × List Middleware)) (name : String) :
    List Middleware :=
  match nm.find? (fun e => e.1 == name) with
  | some e => e.2
  | none => []

/-- Method `hasNamed` from `router.go`: key existence in the map. -/
def hasNamed (n : RouterNode) (name : String) : Bool :=
  (n.namedMiddlewares.find? (fun e => e.1 == name)).isSome

/-- Method `Use` from `router.go`: append to the node's middleware sequence. -/
def use (n : RouterNode) (mws : List Middleware) : RouterNode :=
  { n with middlewares := n.middlewares ++ mws }

/-- Method `Define` from `router.go`: `r.namedMiddlewares[name] =
append(r.namedMiddlewares[name], mws...)` (creates the key if absent). -/
def define (n : RouterNode) (name : String) (mws : List Middleware) : RouterNode :=
  if hasNamed n name then
    { n with namedMiddlewares :=
        n.namedMiddlewares.map (fun e => if e.1 == name then (e.1, e.2 ++ mws) else e) }
  else
    { n with namedMiddlewares := n.namedMiddlewares ++ [(name, mws)] }

/-- Method `UseNamed` from `router.go`: if the name is defined on the current node,
call `Use` there with the stored sequence; otherwise, if not root, run the
whole of `UseNamed` on the parent; at the root, panic (`none`).  The result is
the updated chain from the original node to the root. -/
def useNamed : Chain → String → Option Chain
  | [], _ => none
  | n :: rest, name =>
    if hasNamed n name then
      some (use n (lookupNamed n.namedMiddlewares name) :: rest)
    else
      match rest with
      | [] => none
      | _ :: _ => (useNamed rest name).map (fun rest' => n :: rest')

/-- The position of the nearest node (self first, then ancestors) defining a
name: the part of the chain before it, the defining node, and the rest.  Used
to state where `useNamed` applies the sequence. -/
def findDefiner : Chain → String → Option (Chain × RouterNode × Chain)
  | [], _ => none
  | n :: rest, name =>
    if hasNamed n name then some ([], n, rest)
    else (findDefiner rest name).map (fun x => (n :: x.1, x.2.1, x.2.2))

/-- Struct `parameter` from `context.go`. -/
structure Parameter where
  key : String
  val : String
deriving DecidableEq

/-- The `ctx` struct from `context.go`.  `P`, `Q`, `W` are the (opaque) types
of the parent context, the request and the response writer; Go `nil`
references are `none`.  The `tags` field is omitted: no claim mentions it and
no operation under `src/` reads it. -/
structure Ctx (P Q W : Type) where
  params : List Parameter
  parent : Option P
  req : Option Q
  responseWriter : Option W
  code : Int
  statusWritten : Bool
  searchHistory : List String

variable {P Q W : Type}

/-- A freshly created context (`newContextWithResReq` from `context.go`,
integer and boolean fields at their Go zero values). -/
def newCtx (parent : Option P) (w : Option W) (r : Option Q) : Ctx P Q W :=
  { params := [], parent := parent, req := r, responseWriter := w,
    code := 0, statusWritten := false, searchHistory := [] }

/-- Method `AddParam` from `context.go`: append the pair to the ordered list. -/
def addParam (c : Ctx P Q W) (key val : String) : Ctx P Q W :=
  { c with params := c.params ++ [⟨key, val⟩] }

/-- The loop of `ParamOk` from `context.go`: scan `c.params` front to back and
return the first pair whose key matches, else `("", false)`. -/
def paramOkList : List Parameter → String → String × Bool
  | [], _ => ("", false)
  | p :: rest, key => if p.key == key then (p.val, true) else paramOkList rest key

/-- Method `ParamOk` from `context.go`. -/
def paramOk (c : Ctx P Q W) (key : String) : String × Bool :=
  paramOkList c.params key

/-- Method `WithStatus` from `context.go`: stage the status code. -/
def withStatus (c : Ctx P Q W) (code : Int) : Ctx P Q W :=
  { c with code := code }

/-- Method `writeHeader` from `context.go`: if the status is not yet written, commit
`c.code` to the underlying writer and set the flag.  The second component is
the list of status codes committed to the underlying writer by this call. -/
def writeHeader (c : Ctx P Q W) : Ctx P Q W × List Int :=
  if c.statusWritten then (c, [])
  else ({ c with statusWritten := true }, [c.code])

/-- Method `Reset` from `context.go`: clear the parameters, drop the parent link,
request and response writer, and zero the response state. -/
def reset (c : Ctx P Q W) : Ctx P Q W :=
  { c with params := [], parent := none, req := none, responseWriter := none,
           code := 0, statusWritten := false, searchHistory := [] }

/-- The response-side operations a handler may run between resets:
`withStatus` stages a code; `render` is the shared body-emitting path `raw`
from `context.go` (reached by `JSON`, `XML`, `String`, `Error`), which sets the
content type, runs `writeHeader`, then writes the body. -/
inductive ROp where
  | withStatus (code : Int)
  | render
deriving DecidableEq

/-- Run one response operation; the second component lists the status codes
this operation committed to the underlying writer. -/
def runOp (c : Ctx P Q W) : ROp → Ctx P Q W × List Int
  | .withStatus code => (withStatus c code, [])
  | .render => writeHeader c

/-- Run a sequence of response operations, collecting every committed status
code in order. -/
def runOps : Ctx P Q W → List ROp → Ctx P Q W × List Int
  | c, [] => (c, [])
  | c, op :: rest =>
    let s := runOp c op
    let s' := runOps s.1 rest
    (s'.1, s.2 ++ s'.2)

/-- The error values of `context.go` that the claims mention. -/
inductive CtxError where
  | invalidRedirectStatusCode
deriving DecidableEq

/-- Method `Redirect` from `context.go`: with a staged code outside `300..308` it
returns `ErrInvalidRedirectStatusCode` without redirecting; otherwise it
redirects with the staged code (`.ok code`). -/
def redirect (c : Ctx P Q W) : Except CtxError Int :=
  if c.code < 300 || c.code > 308 then .error .invalidRedirectStatusCode
  else .ok c.code

/-- The `registeredHandlers` field of the node a chain stands for (the list
`Mount` iterates over). -/
def headRegistered (c : Chain) : List RegisteredHandler :=
  match c with
  | [] => []
  | n :: _ => n.registeredHandlers

/-- A router node carrying the labelled middlewares `Ls` (for observing
execution order through `buildMiddlewares`). -/
def labelNode (Ls : List Nat) : RouterNode :=
  { pattern := "", middlewares := Ls.map labelMw, namedMiddlewares := [],
    registeredHandlers := [] }

/-- The `Group` pattern-resolution rule exactly as claim C3 words it: the
exception requires the parent not to be the tree root (rather than the
parent's pattern not being `"/"`, which is what the code tests). -/
def claimGroupPattern (parentIsRoot : Bool) (parentPattern childPattern : String) :
    String :=
  if childPattern == "/" && !parentIsRoot then parentPattern
  else parentPattern ++ childPattern

/-- A mounted tree for C1: a root router with one middleware (event 1) and one
route `GET /x` whose terminal handler logs event 0.  Its `registeredHandlers`
entry stores the composed handler built at registration. -/
def c1Mounted : Option (Chain × Matcher) :=
  handle [newRouter [labelMw 1]] [] "GET" "/x" (labelHandler 0)

/-- Mount the C1 tree at `/m` under a fresh host root whose middleware logs
event 2. -/
def c1Result : Option (Chain × Matcher) :=
  match c1Mounted with
  | none => none
  | some s => mount [newRouter [labelMw 2]] [] "/m" [] (headRegistered s.1)

/-- A root node defining the named middleware bundle `"auth"` (event 1), for
C6. -/
def c6Root : RouterNode := define (newRouter []) "auth" [labelMw 1]

/-- A child of `c6Root` with no local definitions and no middlewares, for
C6. -/
def c6Chain : Chain := [⟨"/y", [], [], []⟩, c6Root]

/-- The child group created by `Mount` in the C1 witness instance. -/
def c1WitnessSub : Chain := ⟨"/m", [], [], []⟩ :: [newRouter []]

/-- The router/matcher state `Mount` produces in the C1 witness instance:
one replayed route, registered under `/m/x` with the stored handler wrapped by
the mounting chain. -/
def c1WitnessState : Chain × Matcher :=
  (⟨"/m", [], [],
      [⟨"GET", "/x", buildMiddlewares c1WitnessSub (labelHandler 0)⟩]⟩ ::
     [newRouter []],
   [("GET", "/m/x", buildMiddlewares c1WitnessSub (labelHandler 0))])

/-! ## Theorems -/

/-- Helper: `paramOkList` returns the first pair whose key matches (helper). -/
theorem paramOkList_eq_find (ps : List Parameter) (key : String) :
    paramOkList ps key =
      (match ps.find? (fun p => p.key == key) with
       | some p => (p.val, true)
       | none => ("", false)) := by
  induction ps with
  | nil => rfl
  | cons p rest ih =>
      by_cases h : p.key == key
      · simp [paramOkList, List.find?, h]
      · simp only [paramOkList, List.find?, h, if_neg, Bool.false_eq_true,
          not_false_iff, ite_false] at *
        exact ih

/-- C5 (counterexample): with duplicate keys inserted via `AddParam`
(`[("id","1"),("id","2")]`), `ParamOk "id"` returns the first inserted value
`"1"`, not the most recently inserted `"2"` that the claim's last-write-wins
rule predicts. -/
theorem c5_paramok_counterexample :
    paramOk (addParam (addParam (newCtx none none none : Ctx Unit Unit Unit)
        "id" "1") "id" "2") "id" = ("1", true) ∧
      (("1", true) : String × Bool) ≠ ("2", true) :=
  ⟨rfl, by decide⟩

/-- C5 (amended): `ParamOk` scans the ordered parameter list front to back, so
for a key with at least one pair it returns the value of the earliest inserted
pair with `found = true` (first-write-wins under duplicate keys), and for a
key with no pair it returns `("", false)`. -/
theorem c5_paramok_first_write_wins (c : Ctx P Q W) (key : String) :
    paramOk c key =
      (match c.params.find? (fun p => p.key == key) with
       | some p => (p.val, true)
       | none => ("", false)) :=
  paramOkList_eq_find c.params key

/-- C7: after `Reset`, the parameter list is empty, the status-written flag is
false, the staged status code is zero and the parent link, request and
response-writer references are cleared — for every prior state. -/
theorem c7_reset_clears_context (c : Ctx P Q W) :
    (reset c).params = [] ∧ (reset c).statusWritten = false ∧
      (reset c).code = 0 ∧ (reset c).parent = none ∧ (reset c).req = none ∧
      (reset c).responseWriter = none :=
  ⟨rfl, rfl, rfl, rfl, rfl, rfl⟩

/-- C8 (counterexample): the empty pattern does not start with `'/'`, yet
`validatePattern` does not panic on it, and grouping with it (`Group("")` on a
fresh root) does not panic either — refuting the claim that every pattern not
starting with `'/'` is a setup-time panic. -/
theorem c8_empty_pattern_counterexample :
    startsWithSlash "" = false ∧ validatePatternPanics "" = false ∧
      (group [newRouter []] "" []).isSome = true :=
  ⟨rfl, rfl, rfl⟩

/-- C8 (amended): `validatePattern` panics exactly on the nonempty patterns
that do not start with `'/'` (the empty pattern passes it), and for every
pattern starting with `'/'` neither `validatePattern` nor the matcher's
`prevalidation` pattern check panics; `prevalidation` (applied to the resolved
absolute path at registration) additionally rejects the empty path. -/
theorem c8_pattern_validation_amended (p : String) :
    validatePatternPanics p = (!(decide (p.length = 0)) && !(startsWithSlash p)) ∧
      prevalidationPanics "GET" p = !(startsWithSlash p) := by
  obtain ⟨data⟩ := p
  cases data with
  | nil => exact ⟨rfl, rfl⟩
  | cons a l =>
      refine ⟨?_, ?_⟩
      · simp [validatePatternPanics, String.length]
      · simp [prevalidationPanics, String.length, startsWithSlash,
          isInStringSlice, allowedHTTPMethods]

/-- C10: `Redirect` returns `ErrInvalidRedirectStatusCode` (and performs no
redirect) whenever the staged status code is below 300 or above 308; in
particular a freshly created or reset context, whose staged code is still 0,
cannot redirect successfully. -/
theorem c10_redirect_requires_3xx (c : Ctx P Q W)
    (h : c.code < 300 ∨ 308 < c.code) :
    redirect c = .error .invalidRedirectStatusCode ∧
      redirect (reset c) = .error .invalidRedirectStatusCode ∧
      redirect (newCtx none none none : Ctx P Q W) =
        .error .invalidRedirectStatusCode := by
  refine ⟨?_, rfl, rfl⟩
  have hb : (decide (c.code < 300) || decide (c.code > 308)) = true := by
    rcases h with h | h <;> simp [h]
  simp [redirect, hb]

/-- Witness for C10 at the concrete fresh context (staged code 0). -/
theorem c10_redirect_requires_3xx_witness :
    redirect (newCtx none none none : Ctx Unit Unit Unit) =
        .error .invalidRedirectStatusCode ∧
      redirect (reset (newCtx none none none : Ctx Unit Unit Unit)) =
        .error .invalidRedirectStatusCode ∧
      redirect (newCtx none none none : Ctx Unit Unit Unit) =
        .error .invalidRedirectStatusCode :=
  c10_redirect_requires_3xx (newCtx none none none) (Or.inl (by decide))

/-- Once the status-written flag is set, no later response operation commits a
status code again and the flag stays set (helper for C9). -/
theorem runOps_written (ops : List ROp) (c : Ctx P Q W)
    (h : c.statusWritten = true) :
    (runOps c ops).2 = [] ∧ (runOps c ops).1.statusWritten = true := by
  induction ops generalizing c with
  | nil => exact ⟨rfl, h⟩
  | cons op rest ih =>
      cases op with
      | withStatus code =>
          have := ih (withStatus c code) h
          simpa [runOps, runOp] using this
      | render =>
          have := ih c h
          simp [runOps, runOp, writeHeader, h]
          simpa [runOps] using this

/-- C9: starting from a request state whose status-written flag is false (as
after acquisition or reset), any sequence of status staging and rendering
operations commits the status header at most once; the flag ends true exactly
when one commit happened, which is exactly when some rendering operation
occurred; and `writeHeader` on a context whose flag is already true commits
nothing. -/
theorem c9_header_committed_once (c : Ctx P Q W) (ops : List ROp)
    (h : c.statusWritten = false) :
    (runOps c ops).2.length ≤ 1 ∧
      ((runOps c ops).1.statusWritten = true ↔ (runOps c ops).2.length = 1) ∧
      ((runOps c ops).2.length = 1 ↔ ROp.render ∈ ops) ∧
      (writeHeader { c with statusWritten := true }).2 = [] := by
  refine ⟨?_, ?_, ?_, by simp [writeHeader]⟩ <;>
  · induction ops generalizing c with
    | nil => simp [runOps, h]
    | cons op rest ih =>
        cases op with
        | withStatus code =>
            have := ih (withStatus c code) h
            simpa [runOps, runOp, withStatus] using this
        | render =>
            obtain ⟨h1, h2⟩ :=
              runOps_written (P := P) (Q := Q) (W := W) rest
                { c with statusWritten := true } rfl
            simp [runOps, runOp, writeHeader, h, h1, h2]

/-- Witness for C9: a concrete request that stages a status and renders
twice. -/
theorem c9_header_committed_once_witness :
    (runOps (newCtx none none none : Ctx Unit Unit Unit)
        [ROp.withStatus 204, ROp.render, ROp.render]).2.length ≤ 1 ∧
      ((runOps (newCtx none none none : Ctx Unit Unit Unit)
          [ROp.withStatus 204, ROp.render, ROp.render]).1.statusWritten = true ↔
        (runOps (newCtx none none none : Ctx Unit Unit Unit)
          [ROp.withStatus 204, ROp.render, ROp.render]).2.length = 1) ∧
      ((runOps (newCtx none none none : Ctx Unit Unit Unit)
          [ROp.withStatus 204, ROp.render, ROp.render]).2.length = 1 ↔
        ROp.render ∈ [ROp.withStatus 204, ROp.render, ROp.render]) ∧
      (writeHeader { (newCtx none none none : Ctx Unit Unit Unit) with
          statusWritten := true }).2 = [] :=
  c9_header_committed_once (newCtx none none none)
    [ROp.withStatus 204, ROp.render, ROp.render] rfl

/-- C3 (counterexample): grouping `"/"` under the tree root (whose resolved
pattern is the empty string) yields the empty pattern, because the code's
exception tests `r.pattern != "/"` rather than root-ness; the claim's rule
(`claimGroupPattern`, exception only for non-root parents) predicts `"/"`
there. -/
theorem c3_group_root_counterexample :
    (group [newRouter []] "/" []).map headPattern = some "" ∧
      claimGroupPattern (isRoot [newRouter []]) (headPattern [newRouter []]) "/"
        = "/" ∧
      ("" : String) ≠ "/" :=
  ⟨rfl, rfl, by decide⟩

/-- C3 (amended): `Group` resolves the child's full pattern as the parent's
resolved pattern concatenated with the child segment, except that when the
child segment is exactly `"/"` and the parent's resolved pattern is not
exactly `"/"` — a condition that also holds at the tree root, whose pattern is
empty — the child's full pattern equals the parent's resolved pattern
unchanged. -/
theorem c3_group_pattern_amended (c : Chain) (pattern : String)
    (mws : List Middleware) (sub : Chain) (h : group c pattern mws = some sub) :
    headPattern sub =
      (if pattern == "/" && headPattern c != "/" then headPattern c
       else headPattern c ++ pattern) := by
  unfold group at h
  split at h
  · exact absurd h (by simp)
  · injection h with h'
    subst h'
    rfl

/-- Witness for C3: grouping `"/"` under a node whose resolved pattern is
`"/a"` yields `"/a"`, not `"/a/"`. -/
theorem c3_group_pattern_amended_witness :
    headPattern ((⟨"/a", [], [], []⟩ : RouterNode) ::
        [(⟨"/a", [], [], []⟩ : RouterNode)]) =
      (if "/" == "/" && headPattern [(⟨"/a", [], [], []⟩ : RouterNode)] != "/"
       then headPattern [(⟨"/a", [], [], []⟩ : RouterNode)]
       else headPattern [(⟨"/a", [], [], []⟩ : RouterNode)] ++ "/") :=
  c3_group_pattern_amended [(⟨"/a", [], [], []⟩ : RouterNode)] "/" [] _ rfl

/-- Wrapping with a list of labelled middlewares logs the labels in list order
before running the inner handler (helper for C2). -/
theorem buildHandler_labelMw (Ls : List Nat) (h : Handler) (tr : Trace) :
    buildHandler (Ls.map labelMw) h tr = h (tr ++ Ls) := by
  induction Ls generalizing tr with
  | nil => simp [buildHandler]
  | cons l Ls ih =>
      show labelMw l (buildHandler (Ls.map labelMw) h) tr = h (tr ++ l :: Ls)
      rw [labelMw, ih]
      simp

/-- Applying `buildMiddlewares` over a chain of labelled nodes logs, for each node from
the root down to the registering node, that node's labels in registration
order, before running the inner handler (helper for C2). -/
theorem buildMiddlewares_labelNode (Lss : List (List Nat)) (h : Handler)
    (tr : Trace) :
    buildMiddlewares (Lss.map labelNode) h tr = h (tr ++ Lss.reverse.flatten) := by
  induction Lss generalizing h tr with
  | nil => simp [buildMiddlewares]
  | cons Ls rest ih =>
      show buildMiddlewares (rest.map labelNode)
            (buildHandler (Ls.map labelMw) h) tr = _
      rw [ih, buildHandler_labelMw]
      simp

/-- C2: the handler produced by `buildMiddlewares` executes middleware of an
ancestor node before middleware of any descendant node and the middleware of
one node in registration order, with the terminal handler last: over any chain
of nodes carrying observable (labelled) middlewares, the trace is the
concatenation of the per-node label lists from the root down, then the
terminal handler's event.  In particular for root middleware `M1` (event 1),
child middleware `M2` (event 2) and handler `H` (event 0), the execution
order is exactly `M1, M2, H`. -/
theorem c2_middleware_order (Lss : List (List Nat)) (l : Nat) (tr : Trace) :
    buildMiddlewares (Lss.map labelNode) (labelHandler l) tr
        = tr ++ Lss.reverse.flatten ++ [l] ∧
      buildMiddlewares [labelNode [2], labelNode [1]] (labelHandler 0) []
        = [1, 2, 0] := by
  refine ⟨?_, rfl⟩
  rw [buildMiddlewares_labelNode]
  simp [labelHandler]

/-- C4: registering `"/d"` on the innermost of the nested groups
`"/a"`, `"/b"`, `"/c"` built from the root registers it with the shared
matcher under the absolute path `"/a/b/c/d"` — for any handler and any
middlewares on the four nodes. -/
theorem c4_nested_groups_absolute_path (h : Handler)
    (m0 m1 m2 m3 : List Middleware) :
    ((do
      let c1 ← group [newRouter m0] "/a" m1
      let c2 ← group c1 "/b" m2
      let c3 ← group c2 "/c" m3
      let r ← handle c3 [] "GET" "/d" h
      pure (r.2.map (fun e => (e.1, e.2.1)))) : Option (List (String × String)))
      = some [("GET", "/a/b/c/d")] := rfl

/-- C6 (counterexample): with root `X` defining `"auth"` and child `Y` not
defining it, `Y.UseNamed("auth")` appends the stored sequence to `X`'s own
middleware list (middleware counts `[0, 1]` along the chain `[Y, X]`), not to
`Y`'s as the claim states (which would give `[1, 0]`). -/
theorem c6_usenamed_counterexample :
    (useNamed c6Chain "auth").map
        (fun c => c.map (fun n => n.middlewares.length)) = some [0, 1] ∧
      (some [0, 1] : Option (List Nat)) ≠ some [1, 0] :=
  ⟨rfl, by decide⟩

/-- C6 (amended): `UseNamed(n)` finds the nearest node on the path from the
calling node to the root that defines `n` and appends the stored sequence to
that defining node's own middleware sequence (so only when the caller itself
defines `n` is the caller's list extended); if no node on the path defines
`n`, the call fails fatally (panics). -/
theorem c6_usenamed_amended (c : Chain) (name : String) :
    useNamed c name =
      (match findDefiner c name with
       | none => none
       | some x =>
           some (x.1 ++ (use x.2.1 (lookupNamed x.2.1.namedMiddlewares name)
                  :: x.2.2))) := by
  induction c with
  | nil => rfl
  | cons n rest ih =>
      by_cases hn : hasNamed n name
      · simp [useNamed, findDefiner, hn]
      · cases rest with
        | nil => simp [useNamed, findDefiner, hn]
        | cons r rs =>
            have hL : useNamed (n :: r :: rs) name
                = if hasNamed n name then
                    some (use n (lookupNamed n.namedMiddlewares name) :: r :: rs)
                  else (useNamed (r :: rs) name).map
                    (fun rest' => n :: rest') := rfl
            have hR : findDefiner (n :: r :: rs) name
                = if hasNamed n name then some ([], n, r :: rs)
                  else (findDefiner (r :: rs) name).map
                    (fun x => (n :: x.1, x.2.1, x.2.2)) := rfl
            rw [hL, if_neg hn, ih, hR, if_neg hn]
            cases findDefiner (r :: rs) name with
            | none => rfl
            | some x => rfl

/-- A successful `Handle` appends exactly one matcher registration — the
resolved pattern with the handler composed at the current position — and
changes neither the patterns nor the middlewares of the chain (helper for
C1). -/
theorem handle_some (c : Chain) (m : Matcher) (method pattern : String)
    (handler : Handler) (st : Chain × Matcher)
    (h : handle c m method pattern handler = some st) :
    st.2 = m ++ [(method, resolveHandlePattern c pattern,
                  buildMiddlewares c handler)] ∧
      (∀ pat, resolveHandlePattern st.1 pat = resolveHandlePattern c pat) ∧
      (∀ hd, buildMiddlewares st.1 hd = buildMiddlewares c hd) := by
  unfold handle at h
  split at h
  · exact absurd h (by simp)
  · split at h
    · exact absurd h (by simp)
    · injection h with h'
      subst h'
      refine ⟨rfl, ?_, ?_⟩
      · intro pat
        cases c with
        | nil => rfl
        | cons n rest => rfl
      · intro hd
        cases c with
        | nil => rfl
        | cons n rest => rfl

/-- The matcher state after `Mount`'s replay loop: one registration per
replayed record, each composed against the mounting chain with the stored
handler as the inner handler (helper for C1). -/
theorem mountReplay_matcher (rhs : List RegisteredHandler) (c : Chain)
    (m : Matcher) (st : Chain × Matcher) (h : mountReplay c m rhs = some st) :
    st.2 = m ++ rhs.map (fun rh =>
      (rh.method, resolveHandlePattern c rh.pattern,
       buildMiddlewares c rh.handler)) := by
  induction rhs generalizing c m with
  | nil =>
      injection h with h'
      subst h'
      simp
  | cons rh rest ih =>
      unfold mountReplay at h
      cases hh : handle c m rh.method rh.pattern rh.handler with
      | none =>
          rw [hh] at h
          exact absurd h (by simp)
      | some s =>
          obtain ⟨c', m'⟩ := s
          rw [hh] at h
          obtain ⟨h1, h2, h3⟩ := handle_some c m rh.method rh.pattern rh.handler
            (c', m') hh
          have hmap : (fun x : RegisteredHandler =>
              (x.method, resolveHandlePattern c' x.pattern,
               buildMiddlewares c' x.handler)) =
              (fun x : RegisteredHandler =>
                (x.method, resolveHandlePattern c x.pattern,
                 buildMiddlewares c x.handler)) := by
            funext x
            rw [h2, h3]
          have h1' : m' = m ++ [(rh.method, resolveHandlePattern c rh.pattern,
              buildMiddlewares c rh.handler)] := h1
          rw [ih c' m' h, hmap, h1']
          simp

/-- C1 (counterexample): mount a router `R` (one middleware logging event 1,
one route `GET /x` whose terminal handler logs event 0) at `/m` under a host
root whose middleware logs event 2.  The handler the matcher ends up with
produces the trace `[2, 1, 0]`: the composed handler stored by `R` — events
`1, 0` — is reused verbatim as the inner handler.  The claim, under which only
the terminal handler is reused and wrapped by the mounting position's
middlewares, predicts the trace `[2, 0]`. -/
theorem c1_mount_counterexample :
    c1Result.map (fun s => s.2.map (fun e => (e.1, e.2.1, e.2.2 [])))
        = some [("GET", "/m/x", [2, 1, 0])] ∧
      ([2, 1, 0] : List Nat) ≠ [2, 0] :=
  ⟨rfl, by decide⟩

/-- C1 (amended): `Mount(pattern, R)` replays each entry of `R`'s
`registeredHandlers` by calling `Handle` on the new child group, reusing the
entry's relative pattern and its stored handler verbatim — and the stored
handler is the handler composed at original registration (it already carries
`R`'s own and `R`'s then-ancestors' middlewares), not the bare terminal
handler; the mounting position's own and ancestor middlewares wrap that
composed handler. -/
theorem c1_mount_replays_composed (c : Chain) (m : Matcher) (pattern : String)
    (mws : List Middleware) (rhs : List RegisteredHandler)
    (st : Chain × Matcher) (h : mount c m pattern mws rhs = some st) :
    ∃ sub, group c pattern mws = some sub ∧
      st.2 = m ++ rhs.map (fun rh =>
        (rh.method, resolveHandlePattern sub rh.pattern,
         buildMiddlewares sub rh.handler)) := by
  unfold mount at h
  cases hg : group c pattern mws with
  | none =>
      rw [hg] at h
      exact absurd h (by simp)
  | some sub =>
      rw [hg] at h
      exact ⟨sub, rfl, mountReplay_matcher rhs sub m st h⟩

/-- Witness for C1 at a concrete mount of one stored route. -/
theorem c1_mount_replays_composed_witness :
    ∃ sub, group [newRouter []] "/m" [] = some sub ∧
      c1WitnessState.2 = [] ++
        [(⟨"GET", "/x", labelHandler 0⟩ : RegisteredHandler)].map
          (fun rh => (rh.method, resolveHandlePattern sub rh.pattern,
                      buildMiddlewares sub rh.handler)) :=
  c1_mount_replays_composed [newRouter []] [] "/m" []
    [⟨"GET", "/x", labelHandler 0⟩] c1WitnessState rfl

end Lion
